import Mathlib

/-!
Verification development for the leadforge-saas repository.

The file shallowly embeds the behaviour of the code that is present in the
repository (the Next.js API route frontend/app/api/leads/route.ts, the SQL
schema with its ON DELETE clauses, and the dashboard pages) and, for the
backend components that the repository only calls into (the FastAPI campaign
engine, throttling sweep, status merge and template renderer described by the
design document), models them from the design document's own words.  Theorems
at the end settle the documented properties against these definitions.
-/

namespace LeadForge

/-! ### Leads API route (frontend/app/api/leads/route.ts)

The route issues raw SQL over the leads table.  A database is modelled as the
list of lead rows in the order the SELECT would produce them; LIMIT n is
List.take, and a WHERE status clause is List.filter.  Query parameters are
Option String: none when the parameter is absent from the URL, some s when it
is present with value s (possibly the empty string). -/

/-- A row of the leads table as the route observes it: the schema columns that
the route's behaviour can depend on (id, tenant column company_id, lifecycle
status). -/
structure LeadRow where
  id : Nat
  company_id : Nat
  status : String
deriving DecidableEq, Repr

/-- Result of the GET handler: on success the JSON carries the rows and the
row count; any thrown error is caught and turned into a 500 response with the
fixed message of the catch block. -/
inductive GetResponse where
  | ok (leads : List LeadRow) (count : Nat)
  | error (httpStatus : Nat) (msg : String)
deriving DecidableEq, Repr

/-- JavaScript parseInt on a string: skip leading whitespace, optional sign,
then the longest prefix of decimal digits; none models NaN (no digits). -/
def parseIntJS (s : String) : Option Int :=
  let cs := s.toList.dropWhile (fun c => c.isWhitespace)
  let core : List Char → Option Int := fun ds =>
    let digits := ds.takeWhile (fun c => c.isDigit)
    if digits.isEmpty then none
    else some (Int.ofNat (digits.foldl (fun n c => n * 10 + (c.toNat - 48)) 0))
  match cs with
  | '-' :: rest => (core rest).map (fun n => -n)
  | '+' :: rest => core rest
  | _ => core cs

/-- The LIMIT the route ends up passing to SQL: parseInt(get('limit') ||
'100'), where absence and the falsy empty string both fall back to '100';
none models the two values (NaN from a digitless parameter, a negative
number) on which the SQL itself throws. -/
def effLimit (limitParam : Option String) : Option Nat :=
  let limitStr :=
    match limitParam with
    | none => "100"
    | some s => if s = "" then "100" else s
  match parseIntJS limitStr with
  | none => none
  | some n => if n < 0 then none else some n.toNat

/-- GET /api/leads.  status := searchParams.get('status'); the filter branch
is taken only when status is truthy, i.e. present and non-empty.  There is no
tenant scoping anywhere in the query.  A throwing LIMIT is caught and turned
into the fixed 500 response. -/
def leadsGET (statusParam limitParam : Option String) (db : List LeadRow) :
    GetResponse :=
  match effLimit limitParam with
  | none => .error 500 "Failed to fetch leads"
  | some m =>
    let rows :=
      match statusParam with
      | some s => if s = "" then db.take m
                  else (db.filter (fun l => l.status == s)).take m
      | none => db.take m
    .ok rows rows.length

/-- The rows of a GET response (empty on the error branch). -/
def GetResponse.rows : GetResponse → List LeadRow
  | .ok r _ => r
  | .error _ _ => []

/-- The JSON body of POST /api/leads as the route reads it: it destructures
only name, email, company, title and source; none models an absent (or null)
field.  Any further field of the request body, such as an attempted status,
is never read; statusField records one to state that fact. -/
structure PostBody where
  name : Option String
  email : Option String
  company : Option String
  title : Option String
  source : Option String
  statusField : Option String
deriving DecidableEq, Repr

/-- The row the INSERT writes: exactly the column list of the statement.
The insert names no company_id column, so the new row carries none. -/
structure LeadInsertRow where
  name : Option String
  email : Option String
  company : Option String
  title : Option String
  source : String
  status : String
deriving DecidableEq, Repr

/-- Result of the POST handler: success JSON with the returned row, or the
catch block's fixed 500 response. -/
inductive PostResponse where
  | ok (lead : LeadInsertRow)
  | error (httpStatus : Nat) (msg : String)
deriving DecidableEq, Repr

/-- JavaScript v || d for an optional string: absent, null and the empty
string are falsy and fall back to the default. -/
def jsOrDefault (v : Option String) (d : String) : String :=
  match v with
  | none => d
  | some s => if s = "" then d else s

/-- POST /api/leads.  The route performs no validation: it always runs the
INSERT with the body's fields (source defaulted through ||, status the
literal new), and any thrown error is caught and collapsed into the fixed
500 response.  dbFail models whether the INSERT throws. -/
def leadsPOST (body : PostBody) (dbFail : Bool) : PostResponse :=
  if dbFail then .error 500 "Failed to create lead"
  else .ok
    { name := body.name
      email := body.email
      company := body.company
      title := body.title
      source := jsOrDefault body.source "manual"
      status := "new" }

/-! ### Campaign start (spec-modelled)

The repository contains only the callers of the start endpoint (handleStart in
frontend/app/campaigns/page.tsx and ApiClient.startCampaign in
frontend/lib/api.ts, which POST to /api/campaigns/id/start); the backend
handler itself (described as backend/app/api/campaigns.py) is not in the
repository, so the operation is modelled from the design document. -/

/-- Campaign lifecycle status, as in frontend/types/index.ts CampaignStatus. -/
inductive CampaignStatus where
  | draft | scheduled | running | paused | completed | canceled
deriving DecidableEq, Repr

/-- Modelled from the spec: the state of one campaign that the missing start
handler inspects — its status, its started_at stamp, and the counts of its
sequence steps and enrolled leads. -/
structure CampaignM where
  status : CampaignStatus
  started_at : Option Nat
  stepCount : Nat
  enrolledCount : Nat
deriving DecidableEq, Repr

/-- Error taxonomy entry raised by an illegal state transition. -/
inductive StartError where
  | invalidState
deriving DecidableEq, Repr

/-- Statuses from which the design document allows start. -/
def canStartFrom : CampaignStatus → Bool
  | .draft => true
  | .scheduled => true
  | .paused => true
  | _ => false

/-- Modelled from the spec: the missing backend start operation.  Allowed from
draft, scheduled or paused; requires at least one sequence step and at least
one enrolled lead; fails with InvalidStateError otherwise, leaving the
campaign as it was.  On success it sets status running and records started_at
on the first start only. -/
def startCampaign (c : CampaignM) (now : Nat) : Option StartError × CampaignM :=
  if canStartFrom c.status && decide (1 ≤ c.stepCount)
      && decide (1 ≤ c.enrolledCount) then
    (none, { c with
              status := .running
              started_at := some (c.started_at.getD now) })
  else (some .invalidState, c)

/-! ### CampaignLead status merge (spec-modelled)

The repository holds only the campaign_leads DDL (the junction table with its
status column); the engagement-event merge logic belongs to the missing
backend, so it is modelled from the design document: a total order over the
chain statuses with most-advanced-wins, and bounced/unsubscribed as absorbing
terminal states. -/

/-- Per-enrollment status of a CampaignLead row. -/
inductive CLStatus where
  | pending | sent | opened | clicked | replied | bounced | unsubscribed
deriving DecidableEq, Repr

/-- Position of a chain status in the total order
pending < sent < opened < clicked < replied; the two terminal states sit
outside the chain. -/
def CLStatus.rank : CLStatus → Nat
  | .pending => 0
  | .sent => 1
  | .opened => 2
  | .clicked => 3
  | .replied => 4
  | .bounced => 5
  | .unsubscribed => 5

/-- Whether a status is one of the absorbing terminal states. -/
def CLStatus.terminal : CLStatus → Bool
  | .bounced => true
  | .unsubscribed => true
  | _ => false

/-- Engagement events delivered by the mail-event collaborator. -/
inductive EngEvent where
  | sent | opened | clicked | replied | bounced | unsubscribed
deriving DecidableEq, Repr

/-- The chain status an engagement event reports. -/
def EngEvent.target : EngEvent → CLStatus
  | .sent => .sent
  | .opened => .opened
  | .clicked => .clicked
  | .replied => .replied
  | .bounced => .bounced
  | .unsubscribed => .unsubscribed

/-- Modelled from the spec: the missing engagement-event update of a
CampaignLead status.  Terminal states absorb every further event; a bounce or
unsubscribe jumps to its terminal state; otherwise the most advanced of the
current status and the event's status wins, tolerating out-of-order webhook
delivery. -/
def applyEvent (s : CLStatus) (e : EngEvent) : CLStatus :=
  if s.terminal then s
  else
    match e with
    | .bounced => .bounced
    | .unsubscribed => .unsubscribed
    | e => if s.rank < (EngEvent.target e).rank then e.target else s

/-- Modelled from the spec: whether the missing send sweep may still send to a
lead — terminal statuses stop further steps for that lead. -/
def sendEligible (s : CLStatus) : Bool := !s.terminal

/-- The advancement order on statuses: a status may stay, may move strictly
forward along the chain, or may jump from a non-terminal status to a terminal
one; a terminal status never moves. -/
def CLStatus.advances (s s' : CLStatus) : Bool :=
  if s = s' then true
  else if s.terminal then false
  else if s'.terminal then true
  else decide (s.rank ≤ s'.rank)

/-! ### Throttled send sweep (spec-modelled)

The repository carries only the throttling declarations (the
throttling_emails_per_hour and throttling_emails_per_day fields of Campaign in
frontend/types/index.ts and their form defaults in the campaigns page); the
evaluation sweep that enforces them belongs to the missing backend and is
modelled from the design document.  Time is in seconds; an hour is 3600. -/

/-- A send that has become due for some enrolled lead, attributed to a
company for throttling. -/
structure SendReq where
  company : Nat
  reqId : Nat
deriving DecidableEq, Repr

/-- A send event recorded in the log: which company it is attributed to,
which request it discharged and when it happened. -/
structure SendEvt where
  company : Nat
  reqId : Nat
  time : Nat
deriving DecidableEq, Repr

/-- Sends of company c in the trailing hour before an attempt at time t,
i.e. events with t - 3600 < time, stated additively over Nat. -/
def recentCount (log : List SendEvt) (c t : Nat) : Nat :=
  log.countP (fun e => e.company == c && decide (t < e.time + 3600))

/-- Sends of company c inside the rolling window that starts at a. -/
def windowCount (log : List SendEvt) (c a : Nat) : Nat :=
  log.countP (fun e => e.company == c && decide (a ≤ e.time)
    && decide (e.time < a + 3600))

/-- State of the sweep: the due sends still pending and the send log. -/
structure SweepState where
  pending : List SendReq
  log : List SendEvt
deriving DecidableEq, Repr

/-- Modelled from the spec: one attempt of the missing evaluation sweep on one
due send at time t.  The send happens only when the campaign is running and
the company's trailing-hour count is below the hourly cap; otherwise the send
is kept for the next pass with nothing dropped. -/
def attemptSend (hourCap : Nat) (isRunning : Bool) (t : Nat)
    (acc : List SendEvt × List SendReq) (r : SendReq) :
    List SendEvt × List SendReq :=
  if isRunning && decide (recentCount acc.1 r.company t < hourCap) then
    (acc.1 ++ [⟨r.company, r.reqId, t⟩], acc.2)
  else (acc.1, acc.2 ++ [r])

/-- Modelled from the spec: one full evaluation pass of the missing sweep at
time t, attempting every pending due send once. -/
def evalPass (hourCap : Nat) (isRunning : Bool) (t : Nat)
    (st : SweepState) : SweepState :=
  let out := st.pending.foldl (attemptSend hourCap isRunning t) (st.log, [])
  ⟨out.2, out.1⟩

/-- A run of the sweep: evaluation passes at the given (time, running) ticks. -/
def runPasses (hourCap : Nat) (st : SweepState) :
    List (Nat × Bool) → SweepState
  | [] => st
  | (t, r) :: rest => runPasses hourCap (evalPass hourCap r t st) rest

/-- All events of a log happened no later than t. -/
def logTimesLE (log : List SendEvt) (t : Nat) : Prop :=
  ∀ e ∈ log, e.time ≤ t

/-- Every company's send count inside every rolling 1-hour window of the log
is within the hourly cap. -/
def capOK (hourCap : Nat) (log : List SendEvt) : Prop :=
  ∀ c a, windowCount log c a ≤ hourCap

/-! ### Template rendering (spec-modelled)

The repository shows only the token vocabulary (the placeholders and the
token list of the Add Sequence form in frontend/app/campaigns/page.tsx, and
the subject/body columns of email_sequences); the renderer itself belongs to
the missing backend and is modelled from the design document: substitute the
recognized tokens with lead/sender fields and leave an unresolved token
verbatim rather than failing. -/

/-- A parsed piece of a subject or body template: literal text, or one
token written as a name between double braces. -/
inductive TPart where
  | lit (s : String)
  | tok (name : String)
deriving DecidableEq, Repr

/-- The fields substitution draws from: the lead's first name, company and
title, and the campaign sender's name. -/
structure RenderCtx where
  first_name : String
  company : String
  title : String
  my_name : String
deriving DecidableEq, Repr

/-- Value of a recognized token, none for an unrecognized one. -/
def tokenValue (ctx : RenderCtx) (name : String) : Option String :=
  if name = "first_name" then some ctx.first_name
  else if name = "company" then some ctx.company
  else if name = "title" then some ctx.title
  else if name = "my_name" then some ctx.my_name
  else none

/-- Modelled from the spec: rendering of one template piece by the missing
renderer.  A recognized token becomes its field; an unrecognized token is
left verbatim, double braces included, never an error. -/
def renderPart (ctx : RenderCtx) : TPart → String
  | .lit s => s
  | .tok name =>
    match tokenValue ctx name with
    | some v => v
    | none => "\x7b\x7b" ++ name ++ "\x7d\x7d"

/-- Modelled from the spec: rendering a whole template for one lead and
sender — the concatenation of its rendered pieces, a total function. -/
def renderTemplate (ctx : RenderCtx) (tpl : List TPart) : String :=
  String.join (tpl.map (renderPart ctx))

/-! ### Cascade delete (database schema)

The schema DDL declares users, leads, campaigns, scraping_jobs and activities
with company_id REFERENCES companies(id) ON DELETE CASCADE, email_sequences
and campaign_leads cascading from campaigns (and campaign_leads also from
leads), and activities.user_id REFERENCES users(id) ON DELETE SET NULL.
deleteCompany is the SQL cascade semantics of DELETE FROM companies for those
clauses. -/

/-- A users row: id and tenant column. -/
structure UserRow where
  id : Nat
  company_id : Nat
deriving DecidableEq, Repr

/-- A campaigns row: id and tenant column. -/
structure CampaignRow where
  id : Nat
  company_id : Nat
deriving DecidableEq, Repr

/-- An email_sequences row: id and owning campaign. -/
structure SequenceRow where
  id : Nat
  campaign_id : Nat
deriving DecidableEq, Repr

/-- A campaign_leads row: id, owning campaign and enrolled lead. -/
structure CampaignLeadRow where
  id : Nat
  campaign_id : Nat
  lead_id : Nat
deriving DecidableEq, Repr

/-- A scraping_jobs row: id and tenant column. -/
structure JobRow where
  id : Nat
  company_id : Nat
deriving DecidableEq, Repr

/-- An activities row: id, tenant column and nullable acting user. -/
structure ActivityRow where
  id : Nat
  company_id : Nat
  user_id : Option Nat
deriving DecidableEq, Repr

/-- The database as the schema declares it, one list of rows per table;
companies is its list of ids. -/
structure Database where
  companies : List Nat
  users : List UserRow
  leads : List LeadRow
  campaigns : List CampaignRow
  sequences : List SequenceRow
  campaign_leads : List CampaignLeadRow
  jobs : List JobRow
  activities : List ActivityRow
deriving DecidableEq, Repr

/-- DELETE FROM companies WHERE id = cid under the schema's referential
actions: rows with company_id = cid cascade away in users, leads, campaigns,
scraping_jobs and activities; email_sequences and campaign_leads cascade from
the deleted campaigns (campaign_leads also from the deleted leads); and
activities referencing a deleted user get user_id set to null. -/
def deleteCompany (db : Database) (cid : Nat) : Database :=
  let deadCampaigns := (db.campaigns.filter
    (fun c => c.company_id == cid)).map (fun c => c.id)
  let deadLeads := (db.leads.filter
    (fun l => l.company_id == cid)).map (fun l => l.id)
  let deadUsers := (db.users.filter
    (fun u => u.company_id == cid)).map (fun u => u.id)
  { companies := db.companies.filter (fun i => decide (i ≠ cid))
    users := db.users.filter (fun u => decide (u.company_id ≠ cid))
    leads := db.leads.filter (fun l => decide (l.company_id ≠ cid))
    campaigns := db.campaigns.filter (fun c => decide (c.company_id ≠ cid))
    sequences := db.sequences.filter
      (fun s => decide (s.campaign_id ∉ deadCampaigns))
    campaign_leads := db.campaign_leads.filter
      (fun cl => decide (cl.campaign_id ∉ deadCampaigns)
        && decide (cl.lead_id ∉ deadLeads))
    jobs := db.jobs.filter (fun j => decide (j.company_id ≠ cid))
    activities := (db.activities.filter
      (fun a => decide (a.company_id ≠ cid))).map
      (fun a =>
        match a.user_id with
        | some u => if u ∈ deadUsers then { a with user_id := none }
                    else a
        | none => a) }

/-! ### Scraping page (frontend scraping page component)

handleLinkedInScrape and handleGoogleMapsScrape await the POST to
/api/scraping/linkedin or /api/scraping/google-maps and put response.data
straight into the result state; the result block then renders result.message
and result.leads_found from that state.  No job is created or polled in this
flow. -/

/-- The response body of the scrape POST as the page consumes it. -/
structure ScrapeResponse where
  message : String
  leads_found : Nat
deriving DecidableEq, Repr

/-- The page state the scrape flow touches. -/
structure ScrapePageState where
  loading : Bool
  error : String
  result : Option ScrapeResponse
deriving DecidableEq, Repr

/-- The page state before any scrape. -/
def initialScrapeState : ScrapePageState := ⟨false, "", none⟩

/-- The handler on a successful scrape POST: loading cleared by the finally
block, error cleared, result set to response.data. -/
def applyScrapeSuccess (_st : ScrapePageState) (resp : ScrapeResponse) :
    ScrapePageState :=
  { loading := false, error := "", result := some resp }

/-- What the result block displays as Leads Found, when a result is shown. -/
def observedLeadsFound (st : ScrapePageState) : Option Nat :=
  st.result.map (fun r => r.leads_found)

/-! ## Theorems -/

/-- C1: the GET /api/leads query has no tenant scoping, so the response a
caller of company 1 observes changes when a row of company 2 is added, and
the company 2 row itself is returned to them; noninterference between
tenants fails on this route (the repository's own README promises row-level
isolation). -/
theorem C1_get_leads_cross_tenant_interference :
    leadsGET none none [⟨1, 1, "new"⟩] ≠
      leadsGET none none [⟨1, 1, "new"⟩, ⟨2, 2, "new"⟩] ∧
    (⟨2, 2, "new"⟩ : LeadRow) ∈
      (leadsGET none none [⟨1, 1, "new"⟩, ⟨2, 2, "new"⟩]).rows := by
  constructor
  · decide
  · decide

/-- C7 counterexample: a POST /api/leads with no usable field at all (every
body field absent) does not fail with a ValidationError — it succeeds and
creates an all-null row with source manual and status new; and the route
collapses every internal failure, whatever the body, into one fixed
uninformative 500 response. -/
theorem C7_counterexample_no_validation :
    leadsPOST ⟨none, none, none, none, none, none⟩ false =
      .ok ⟨none, none, none, none, "manual", "new"⟩ ∧
    leadsPOST ⟨none, none, none, none, none, none⟩ true =
      .error 500 "Failed to create lead" ∧
    leadsPOST ⟨some "Ada", some "ada@x.io", none, none, some "api", none⟩ true =
      .error 500 "Failed to create lead" := by
  refine ⟨?_, ?_, ?_⟩ <;> decide

/-- C7 amended: POST /api/leads performs no input validation — every request
body, however empty, runs the INSERT and succeeds with an all-nullable row
(source defaulted through JavaScript truthiness, status the literal new);
every internal failure is caught and returned as the fixed 500 response
without field or error detail. -/
theorem C7_leadsPOST_no_validation_generic_500 :
    ∀ (body : PostBody) (dbFail : Bool),
    (dbFail = false → leadsPOST body dbFail =
      .ok ⟨body.name, body.email, body.company, body.title,
            jsOrDefault body.source "manual", "new"⟩) ∧
    (dbFail = true → leadsPOST body dbFail =
      .error 500 "Failed to create lead") := by
  intro body dbFail
  cases dbFail <;> simp [leadsPOST]

/-- C7 witness: the amended theorem evaluated on a concrete body on both the
success path and the failure path. -/
theorem C7_witness :
    leadsPOST ⟨some "Ada", none, none, none, some "", none⟩ false =
      .ok ⟨some "Ada", none, none, none, "manual", "new"⟩ ∧
    leadsPOST ⟨some "Ada", none, none, none, some "", none⟩ true =
      .error 500 "Failed to create lead" := by
  have h := C7_leadsPOST_no_validation_generic_500
    ⟨some "Ada", none, none, none, some "", none⟩
  exact ⟨(h false).1 rfl, (h true).2 rfl⟩

/-- C8 counterexample: the scraping flow makes the outcome observable without
any job polling — a single POST response already carries leads found, and the
page displays it directly, refuting that results become observable only
through subsequent polling of a job. -/
theorem C8_counterexample_synchronous_result :
    observedLeadsFound
      (applyScrapeSuccess initialScrapeState ⟨"Scraping complete", 42⟩) =
      some 42 := by
  decide

/-- C8 amended: POST /api/scraping/linkedin and /api/scraping/google-maps
return the scraping outcome synchronously in the calling response; the page
stores response.data as the result and renders its leads found count
directly, with no job handle created or polled in this flow. -/
theorem C8_scrape_result_from_response :
    ∀ (st : ScrapePageState) (resp : ScrapeResponse),
    applyScrapeSuccess st resp = ⟨false, "", some resp⟩ ∧
    observedLeadsFound (applyScrapeSuccess st resp) = some resp.leads_found := by
  intro st resp
  exact ⟨rfl, rfl⟩

/-- C10 counterexample: a POST /api/leads whose source field is present but
equal to the empty string stores source manual, not the request's source
value, because the empty string is falsy in the JavaScript default
expression. -/
theorem C10_counterexample_empty_source :
    leadsPOST ⟨none, none, none, none, some "", none⟩ false =
      .ok ⟨none, none, none, none, "manual", "new"⟩ ∧
    "manual" ≠ "" := by
  constructor
  · decide
  · decide

/-- C10 amended: every lead created via POST /api/leads gets lifecycle status
new unconditionally — a status field in the body is never read — and source
equal to the request's source field when that field is present and non-empty,
and manual otherwise. -/
theorem C10_leadsPOST_status_new_source_default :
    ∀ (body : PostBody),
    leadsPOST body false =
      .ok ⟨body.name, body.email, body.company, body.title,
            jsOrDefault body.source "manual", "new"⟩ ∧
    (∀ s, body.source = some s → s ≠ "" →
      jsOrDefault body.source "manual" = s) ∧
    ((body.source = none ∨ body.source = some "") →
      jsOrDefault body.source "manual" = "manual") := by
  intro body
  refine ⟨by simp [leadsPOST], ?_, ?_⟩
  · intro s hs hne
    simp [jsOrDefault, hs, hne]
  · intro h
    rcases h with h | h <;> simp [jsOrDefault, h]

/-- C10 witness: the amended theorem evaluated on a body carrying a non-empty
source and, separately, its defaulting conjunct on an empty source. -/
theorem C10_witness :
    leadsPOST ⟨none, none, none, none, some "api", some "won"⟩ false =
      .ok ⟨none, none, none, none, "api", "new"⟩ ∧
    jsOrDefault (some "api") "manual" = "api" := by
  have h := C10_leadsPOST_status_new_source_default
    ⟨none, none, none, none, some "api", some "won"⟩
  refine ⟨?_, h.2.1 "api" rfl (by decide)⟩
  have h1 := h.1
  simpa [jsOrDefault] using h1

/-- C2: start succeeds exactly when the campaign is in draft, scheduled or
paused and has at least one sequence step and at least one enrolled lead; on
any other input it fails with InvalidStateError and leaves the campaign
unchanged; on success the status becomes running, the counts are untouched,
and started_at keeps its first-start value when one exists and is stamped
with the current time otherwise. -/
theorem C2_startCampaign_correct :
    ∀ (c : CampaignM) (now : Nat),
    ((startCampaign c now).1 = none ↔
      (canStartFrom c.status = true ∧ 1 ≤ c.stepCount ∧ 1 ≤ c.enrolledCount)) ∧
    ((startCampaign c now).1 = none ∨
      (startCampaign c now).1 = some .invalidState) ∧
    ((startCampaign c now).1 = some .invalidState →
      (startCampaign c now).2 = c) ∧
    ((startCampaign c now).1 = none →
      (startCampaign c now).2.status = .running ∧
      (startCampaign c now).2.stepCount = c.stepCount ∧
      (startCampaign c now).2.enrolledCount = c.enrolledCount ∧
      (startCampaign c now).2.started_at = some (c.started_at.getD now)) := by
  intro c now
  by_cases h : (canStartFrom c.status && decide (1 ≤ c.stepCount)
      && decide (1 ≤ c.enrolledCount)) = true
  · have h' := h
    simp only [Bool.and_eq_true, decide_eq_true_eq] at h'
    refine ⟨?_, ?_, ?_, ?_⟩
    · simp [startCampaign, h, h'.1.1, h'.1.2, h'.2]
    · left; simp [startCampaign, h]
    · intro hc; exact absurd hc (by simp [startCampaign, h])
    · intro _; simp [startCampaign, h]
  · have h' : ¬ (canStartFrom c.status = true ∧ 1 ≤ c.stepCount ∧
        1 ≤ c.enrolledCount) := by
      simpa [Bool.and_eq_true, decide_eq_true_eq, and_assoc] using h
    refine ⟨?_, ?_, ?_, ?_⟩
    · simp [startCampaign, h, h']
    · right; simp [startCampaign, h]
    · intro _; simp [startCampaign, h]
    · intro hc; exact absurd hc (by simp [startCampaign, h])

/-- C2 witness: the theorem evaluated on a concrete first start — a draft
campaign with one step and one lead starts, becomes running, and records
started_at 1000. -/
theorem C2_witness :
    (startCampaign ⟨.draft, none, 1, 1⟩ 1000).1 = none ∧
    (startCampaign ⟨.draft, none, 1, 1⟩ 1000).2.status = .running ∧
    (startCampaign ⟨.draft, none, 1, 1⟩ 1000).2.started_at = some 1000 := by
  have h := C2_startCampaign_correct ⟨.draft, none, 1, 1⟩ 1000
  have hs : (startCampaign ⟨.draft, none, 1, 1⟩ 1000).1 = none :=
    h.1.mpr ⟨rfl, le_refl 1, le_refl 1⟩
  have hr := h.2.2.2 hs
  exact ⟨hs, hr.1, hr.2.2.2⟩

/-- C5: template rendering is a pure function of step, lead and sender —
rendering the same template twice yields the same string — and each
recognized token is replaced by the corresponding lead or sender field while
an unrecognized token is left verbatim between its double braces rather than
raising an error. -/
theorem C5_renderTemplate_correct :
    ∀ (ctx : RenderCtx) (tpl : List TPart),
    renderTemplate ctx tpl = renderTemplate ctx tpl ∧
    renderPart ctx (.tok "first_name") = ctx.first_name ∧
    renderPart ctx (.tok "company") = ctx.company ∧
    renderPart ctx (.tok "title") = ctx.title ∧
    renderPart ctx (.tok "my_name") = ctx.my_name ∧
    (∀ name, tokenValue ctx name = none →
      renderPart ctx (.tok name) = "\x7b\x7b" ++ name ++ "\x7d\x7d") := by
  intro ctx tpl
  refine ⟨rfl, ?_, ?_, ?_, ?_, ?_⟩
  · simp [renderPart, tokenValue]
  · simp [renderPart, tokenValue]
  · simp [renderPart, tokenValue]
  · simp [renderPart, tokenValue]
  · intro name hname
    simp [renderPart, hname]

/-- C5 witness: the theorem evaluated on a concrete context and the
unrecognized token unknown, which is passed through verbatim. -/
theorem C5_witness :
    tokenValue ⟨"Grace", "Acme", "CTO", "Lin"⟩ "unknown" = none ∧
    renderPart ⟨"Grace", "Acme", "CTO", "Lin"⟩ (.tok "unknown") =
      "\x7b\x7bunknown\x7d\x7d" := by
  refine ⟨by decide, ?_⟩
  exact (C5_renderTemplate_correct ⟨"Grace", "Acme", "CTO", "Lin"⟩ []).2.2.2.2.2
    "unknown" (by decide)

/-- The advancement order is reflexive. -/
theorem CLStatus.advances_refl (s : CLStatus) :
    CLStatus.advances s s = true := by
  simp [CLStatus.advances]

/-- The advancement order is transitive. -/
theorem CLStatus.advances_trans (s t u : CLStatus)
    (h1 : CLStatus.advances s t = true) (h2 : CLStatus.advances t u = true) :
    CLStatus.advances s u = true := by
  revert h1 h2
  cases s <;> cases t <;> cases u <;> decide

/-- A single engagement event only moves a status forward. -/
theorem applyEvent_advances (s : CLStatus) (e : EngEvent) :
    CLStatus.advances s (applyEvent s e) = true := by
  cases s <;> cases e <;> decide

/-- A terminal status absorbs every engagement event. -/
theorem applyEvent_terminal_absorb (s : CLStatus) (e : EngEvent)
    (h : s.terminal = true) : applyEvent s e = s := by
  revert h
  cases s <;> cases e <;> decide

/-- Any sequence of engagement events only moves a status forward. -/
theorem foldl_applyEvent_advances (events : List EngEvent) (s : CLStatus) :
    CLStatus.advances s (events.foldl applyEvent s) = true := by
  induction events generalizing s with
  | nil => exact CLStatus.advances_refl s
  | cons e es ih =>
    simp only [List.foldl_cons]
    exact CLStatus.advances_trans s (applyEvent s e) _
      (applyEvent_advances s e) (ih (applyEvent s e))

/-- A terminal status absorbs any sequence of engagement events. -/
theorem foldl_terminal_absorb (events : List EngEvent) (s : CLStatus)
    (h : s.terminal = true) : events.foldl applyEvent s = s := by
  induction events with
  | nil => rfl
  | cons e es ih =>
    simp only [List.foldl_cons, applyEvent_terminal_absorb s e h]
    exact ih

/-- C3: every engagement update moves a CampaignLead status only forward in
the order pending, sent, opened, clicked, replied, or jumps to a terminal
state from a non-terminal one, and so does any sequence of updates; no update
regresses, and a terminal status absorbs all further updates and blocks
further sends for that lead. -/
theorem C3_campaignLead_status_monotone :
    ∀ (s : CLStatus) (events : List EngEvent),
    (∀ e, CLStatus.advances s (applyEvent s e) = true) ∧
    CLStatus.advances s (events.foldl applyEvent s) = true ∧
    (s.terminal = true →
      events.foldl applyEvent s = s ∧ sendEligible s = false) := by
  intro s events
  refine ⟨fun e => applyEvent_advances s e,
    foldl_applyEvent_advances events s, fun h => ⟨?_, ?_⟩⟩
  · exact foldl_terminal_absorb events s h
  · cases s <;> simp_all [sendEligible, CLStatus.terminal]

/-- C3 witness: the theorem evaluated on a bounced lead receiving a later
out-of-order open event — the status stays bounced and the lead is no longer
eligible for sends. -/
theorem C3_witness :
    CLStatus.terminal .bounced = true ∧
    ([EngEvent.opened].foldl applyEvent .bounced = .bounced ∧
      sendEligible .bounced = false) := by
  exact ⟨by decide,
    (C3_campaignLead_status_monotone .bounced [.opened]).2.2 (by decide)⟩

/-- C6: after deleting a company, no row of any table references the deleted
company id — users, leads, campaigns, scraping jobs and activities with that
company_id are gone, every surviving email sequence belongs to a campaign of
another company, and every surviving enrollment references a campaign and a
lead of another company. -/
theorem C6_deleteCompany_no_orphans :
    ∀ (db : Database) (cid : Nat),
    (∀ i ∈ (deleteCompany db cid).companies, i ≠ cid) ∧
    (∀ u ∈ (deleteCompany db cid).users, u.company_id ≠ cid) ∧
    (∀ l ∈ (deleteCompany db cid).leads, l.company_id ≠ cid) ∧
    (∀ c ∈ (deleteCompany db cid).campaigns, c.company_id ≠ cid) ∧
    (∀ j ∈ (deleteCompany db cid).jobs, j.company_id ≠ cid) ∧
    (∀ a ∈ (deleteCompany db cid).activities, a.company_id ≠ cid) ∧
    (∀ s ∈ (deleteCompany db cid).sequences, ∀ c ∈ db.campaigns,
      c.id = s.campaign_id → c.company_id ≠ cid) ∧
    (∀ cl ∈ (deleteCompany db cid).campaign_leads,
      (∀ c ∈ db.campaigns, c.id = cl.campaign_id → c.company_id ≠ cid) ∧
      (∀ l ∈ db.leads, l.id = cl.lead_id → l.company_id ≠ cid)) := by
  intro db cid
  refine ⟨?_, ?_, ?_, ?_, ?_, ?_, ?_, ?_⟩
  · intro i hi
    simp only [deleteCompany, List.mem_filter, decide_eq_true_eq] at hi
    exact hi.2
  · intro u hu
    simp only [deleteCompany, List.mem_filter, decide_eq_true_eq] at hu
    exact hu.2
  · intro l hl
    simp only [deleteCompany, List.mem_filter, decide_eq_true_eq] at hl
    exact hl.2
  · intro c hc
    simp only [deleteCompany, List.mem_filter, decide_eq_true_eq] at hc
    exact hc.2
  · intro j hj
    simp only [deleteCompany, List.mem_filter, decide_eq_true_eq] at hj
    exact hj.2
  · intro a ha
    simp only [deleteCompany, List.mem_map, List.mem_filter,
      decide_eq_true_eq] at ha
    obtain ⟨b, ⟨_, hbne⟩, rfl⟩ := ha
    cases hu : b.user_id with
    | none => simpa [hu] using hbne
    | some u =>
      by_cases hin : u ∈ (db.users.filter
          (fun v => v.company_id == cid)).map (fun v => v.id)
      · simpa [hu, hin] using hbne
      · simpa [hu, hin] using hbne
  · intro s hs
    simp only [deleteCompany, List.mem_filter, decide_eq_true_eq] at hs
    intro c hc hcid hccid
    exact hs.2 (List.mem_map.mpr
      ⟨c, List.mem_filter.mpr ⟨hc, by simp [hccid]⟩, hcid⟩)
  · intro cl hcl
    simp only [deleteCompany, List.mem_filter, Bool.and_eq_true,
      decide_eq_true_eq] at hcl
    obtain ⟨_, hcamp, hlead⟩ := hcl
    constructor
    · intro c hc hcid hccid
      exact hcamp (List.mem_map.mpr
        ⟨c, List.mem_filter.mpr ⟨hc, by simp [hccid]⟩, hcid⟩)
    · intro l hl hlid hlcid
      exact hlead (List.mem_map.mpr
        ⟨l, List.mem_filter.mpr ⟨hl, by simp [hlcid]⟩, hlid⟩)

/-- C6 witness: the theorem evaluated on a concrete two-company database —
the user of company 2 survives the delete of company 1 and indeed does not
reference company 1. -/
theorem C6_witness :
    (⟨2, 2⟩ : UserRow) ∈ (deleteCompany
      ⟨[1, 2], [⟨1, 1⟩, ⟨2, 2⟩], [⟨1, 1, "new"⟩], [⟨10, 1⟩, ⟨20, 2⟩],
        [⟨5, 10⟩], [⟨7, 10, 1⟩], [⟨3, 1⟩], [⟨4, 1, some 1⟩]⟩ 1).users ∧
    (⟨2, 2⟩ : UserRow).company_id ≠ 1 := by
  refine ⟨by decide, ?_⟩
  exact (C6_deleteCompany_no_orphans
    ⟨[1, 2], [⟨1, 1⟩, ⟨2, 2⟩], [⟨1, 1, "new"⟩], [⟨10, 1⟩, ⟨20, 2⟩],
      [⟨5, 10⟩], [⟨7, 10, 1⟩], [⟨3, 1⟩], [⟨4, 1, some 1⟩]⟩ 1).2.1
    ⟨2, 2⟩ (by decide)

/-- C9 counterexample: with a status query parameter that is present but
empty, the route takes the unfiltered branch (the empty string is falsy), so
it returns a row whose status is not the parameter's value — the claim that a
present status parameter filters every returned row fails. -/
theorem C9_counterexample_empty_status :
    (leadsGET (some "") none [⟨1, 1, "new"⟩]).rows = [⟨1, 1, "new"⟩] ∧
    ¬ (∀ l ∈ (leadsGET (some "") none [⟨1, 1, "new"⟩]).rows,
        l.status = "") := by
  constructor
  · decide
  · decide

/-- C9 amended: GET /api/leads returns at most the effective limit many rows,
where the limit parameter defaults to 100 when absent; when the status
parameter is present and non-empty every returned row has exactly that
status, and when it is absent or empty no filter is applied; a limit on which
the SQL throws yields the fixed 500 response. -/
theorem C9_leadsGET_limit_and_filter :
    ∀ (db : List LeadRow) (sp lp : Option String),
    effLimit none = some 100 ∧
    (∀ m, effLimit lp = some m → (leadsGET sp lp db).rows.length ≤ m) ∧
    (effLimit lp = none →
      leadsGET sp lp db = .error 500 "Failed to fetch leads") ∧
    (∀ s, sp = some s → s ≠ "" →
      ∀ l ∈ (leadsGET sp lp db).rows, l.status = s) ∧
    (∀ m, effLimit lp = some m → (sp = none ∨ sp = some "") →
      (leadsGET sp lp db).rows = db.take m) := by
  intro db sp lp
  refine ⟨by decide, ?_, ?_, ?_, ?_⟩
  · intro m hm
    cases sp with
    | none => simp [leadsGET, hm, GetResponse.rows, List.length_take_le]
    | some s =>
      by_cases hs : s = ""
      · simp [leadsGET, hm, hs, GetResponse.rows, List.length_take_le]
      · simp [leadsGET, hm, hs, GetResponse.rows, List.length_take_le]
  · intro h
    simp [leadsGET, h]
  · intro s hsp hne l hl
    subst hsp
    cases heff : effLimit lp with
    | none => simp [leadsGET, heff, GetResponse.rows] at hl
    | some m =>
      simp only [leadsGET, heff, GetResponse.rows, if_neg hne] at hl
      have hmem := List.mem_of_mem_take hl
      have h2 := (List.mem_filter.mp hmem).2
      simpa using h2
  · intro m hm hsp
    rcases hsp with h | h <;> subst h <;>
      simp [leadsGET, hm, GetResponse.rows]

/-- C9 witness: the theorem evaluated with limit parameter 1 on a two-row
table — at most one row comes back. -/
theorem C9_witness :
    effLimit (some "1") = some 1 ∧
    (leadsGET (some "new") (some "1")
      [⟨1, 1, "new"⟩, ⟨2, 1, "new"⟩]).rows.length ≤ 1 := by
  refine ⟨by decide, ?_⟩
  exact (C9_leadsGET_limit_and_filter [⟨1, 1, "new"⟩, ⟨2, 1, "new"⟩]
    (some "new") (some "1")).2.1 1 (by decide)

/-- Appending one send event at the attempt time preserves the rolling-window
cap, because every already-logged event inside a window that contains the new
event also lies in the trailing hour the guard counted. -/
theorem capOK_append (hourCap : Nat) (log : List SendEvt) (ev : SendEvt)
    (t : Nat) (hcap : capOK hourCap log) (hevt : ev.time = t)
    (hguard : recentCount log ev.company t < hourCap) :
    capOK hourCap (log ++ [ev]) := by
  intro c a
  unfold windowCount
  rw [List.countP_append]
  by_cases hc : (ev.company == c && decide (a ≤ ev.time)
      && decide (ev.time < a + 3600)) = true
  · have hsing : List.countP
        (fun e => e.company == c && decide (a ≤ e.time)
          && decide (e.time < a + 3600)) [ev] = 1 := by
      simp [List.countP_cons, hc]
    rw [hsing]
    simp only [Bool.and_eq_true, beq_iff_eq, decide_eq_true_eq] at hc
    obtain ⟨⟨hcc, _⟩, ha2⟩ := hc
    have hsub : windowCount log c a ≤ recentCount log c t := by
      unfold windowCount recentCount
      apply List.countP_mono_left
      intro e _ hp
      simp only [Bool.and_eq_true, beq_iff_eq, decide_eq_true_eq] at hp ⊢
      refine ⟨hp.1.1, ?_⟩
      have h1 : a ≤ e.time := hp.1.2
      have h2 : t < a + 3600 := by omega
      omega
    rw [hcc] at hguard
    unfold windowCount at hsub
    omega
  · have hsing : List.countP
        (fun e => e.company == c && decide (a ≤ e.time)
          && decide (e.time < a + 3600)) [ev] = 0 := by
      simp [List.countP_cons, hc]
    rw [hsing]
    have := hcap c a
    unfold windowCount at this
    omega

/-- One throttled attempt preserves the time bound and the rolling-window
cap of the log. -/
theorem attemptSend_inv (hourCap : Nat) (running : Bool) (t : Nat)
    (acc : List SendEvt × List SendReq) (r : SendReq)
    (hts : logTimesLE acc.1 t) (hcap : capOK hourCap acc.1) :
    logTimesLE (attemptSend hourCap running t acc r).1 t ∧
      capOK hourCap (attemptSend hourCap running t acc r).1 := by
  unfold attemptSend
  by_cases h : (running && decide (recentCount acc.1 r.company t < hourCap))
      = true
  · rw [if_pos h]
    have hguard : recentCount acc.1 r.company t < hourCap := by
      have h' := h
      simp only [Bool.and_eq_true, decide_eq_true_eq] at h'
      exact h'.2
    constructor
    · intro e he
      rcases List.mem_append.mp he with he | he
      · exact hts e he
      · have : e = ⟨r.company, r.reqId, t⟩ := by simpa using he
        simp [this]
    · exact capOK_append hourCap acc.1 ⟨r.company, r.reqId, t⟩ t hcap rfl
        hguard
  · rw [if_neg h]
    exact ⟨hts, hcap⟩

/-- A whole fold of throttled attempts preserves the time bound and the
rolling-window cap of the log. -/
theorem foldl_attemptSend_inv (hourCap : Nat) (running : Bool) (t : Nat) :
    ∀ (reqs : List SendReq) (acc : List SendEvt × List SendReq),
    logTimesLE acc.1 t → capOK hourCap acc.1 →
    logTimesLE (reqs.foldl (attemptSend hourCap running t) acc).1 t ∧
      capOK hourCap (reqs.foldl (attemptSend hourCap running t) acc).1 := by
  intro reqs
  induction reqs with
  | nil => intro acc h1 h2; exact ⟨h1, h2⟩
  | cons r rs ih =>
    intro acc h1 h2
    have h := attemptSend_inv hourCap running t acc r h1 h2
    simpa [List.foldl_cons] using
      ih (attemptSend hourCap running t acc r) h.1 h.2

/-- One evaluation pass preserves the time bound and the rolling-window cap
of the log. -/
theorem evalPass_inv (hourCap : Nat) (running : Bool) (t : Nat)
    (st : SweepState) (hts : logTimesLE st.log t)
    (hcap : capOK hourCap st.log) :
    logTimesLE (evalPass hourCap running t st).log t ∧
      capOK hourCap (evalPass hourCap running t st).log :=
  foldl_attemptSend_inv hourCap running t st.pending (st.log, []) hts hcap

/-- Across a run of passes at nondecreasing times, the log never exceeds any
company's hourly cap in any rolling window. -/
theorem runPasses_capOK (hourCap : Nat) :
    ∀ (ticks : List (Nat × Bool)) (st : SweepState) (t0 : Nat),
    logTimesLE st.log t0 → capOK hourCap st.log →
    List.Chain (fun a b => a ≤ b) t0 (ticks.map Prod.fst) →
    capOK hourCap (runPasses hourCap st ticks).log := by
  intro ticks
  induction ticks with
  | nil => intro st t0 _ h2 _; exact h2
  | cons tk rest ih =>
    intro st t0 h1 h2 hchain
    obtain ⟨t, r⟩ := tk
    simp only [List.map_cons, List.chain_cons] at hchain
    have hst : logTimesLE st.log t := fun e he => le_trans (h1 e he) hchain.1
    have hstep := evalPass_inv hourCap r t st hst h2
    exact ih (evalPass hourCap r t st) t hstep.1 hstep.2 hchain.2

/-- Through a fold of throttled attempts, a request that starts pending or
among the inputs ends either still pending or as a logged send event. -/
theorem foldl_attemptSend_accounted (hourCap : Nat) (running : Bool)
    (t : Nat) :
    ∀ (reqs : List SendReq) (acc : List SendEvt × List SendReq) (r : SendReq),
    (r ∈ acc.2 ∨ r ∈ reqs ∨
      ∃ e ∈ acc.1, e.reqId = r.reqId ∧ e.company = r.company) →
    (r ∈ (reqs.foldl (attemptSend hourCap running t) acc).2 ∨
      ∃ e ∈ (reqs.foldl (attemptSend hourCap running t) acc).1,
        e.reqId = r.reqId ∧ e.company = r.company) := by
  intro reqs
  induction reqs with
  | nil =>
    intro acc r h
    rcases h with h | h | h
    · exact .inl h
    · simp at h
    · exact .inr h
  | cons q qs ih =>
    intro acc r h
    simp only [List.foldl_cons]
    apply ih
    unfold attemptSend
    by_cases hg : (running
        && decide (recentCount acc.1 q.company t < hourCap)) = true
    · rw [if_pos hg]
      rcases h with h | h | h
      · exact .inl h
      · rcases List.mem_cons.mp h with h | h
        · subst h
          exact .inr (.inr ⟨⟨r.company, r.reqId, t⟩, by simp, rfl, rfl⟩)
        · exact .inr (.inl h)
      · obtain ⟨e, he, hprop⟩ := h
        exact .inr (.inr ⟨e, by simp [he], hprop⟩)
    · rw [if_neg hg]
      rcases h with h | h | h
      · exact .inl (by simp [h])
      · rcases List.mem_cons.mp h with h | h
        · subst h; exact .inl (by simp)
        · exact .inr (.inl h)
      · exact .inr (.inr h)

/-- One evaluation pass never drops a pending send: it either stays pending
for the next pass or is recorded as a send event of that request. -/
theorem evalPass_no_drop (hourCap : Nat) (running : Bool) (t : Nat)
    (st : SweepState) (r : SendReq) (hr : r ∈ st.pending) :
    r ∈ (evalPass hourCap running t st).pending ∨
      ∃ e ∈ (evalPass hourCap running t st).log,
        e.reqId = r.reqId ∧ e.company = r.company :=
  foldl_attemptSend_accounted hourCap running t st.pending (st.log, []) r
    (.inr (.inl hr))

/-- C4: across any run of evaluation passes at nondecreasing times starting
from an empty log, no company ever exceeds its hourly cap in any rolling
1-hour window; and at every single pass each pending due send is attempted
and is either recorded as sent or kept pending for the next pass — a
throttled send is deferred, never dropped. -/
theorem C4_throttle_cap_and_no_drop :
    ∀ (hourCap : Nat) (reqs : List SendReq) (ticks : List (Nat × Bool)),
    List.Chain (fun a b => a ≤ b) 0 (ticks.map Prod.fst) →
    (∀ c a, windowCount (runPasses hourCap ⟨reqs, []⟩ ticks).log c a
      ≤ hourCap) ∧
    (∀ (st : SweepState) (running : Bool) (t : Nat) (r : SendReq),
      r ∈ st.pending →
      r ∈ (evalPass hourCap running t st).pending ∨
        ∃ e ∈ (evalPass hourCap running t st).log,
          e.reqId = r.reqId ∧ e.company = r.company) := by
  intro hourCap reqs ticks hchain
  constructor
  · exact runPasses_capOK hourCap ticks ⟨reqs, []⟩ 0
      (fun e he => by simp at he)
      (fun c a => by simp [windowCount]) hchain
  · intro st running t r hr
    exact evalPass_no_drop hourCap running t st r hr

/-- C4 witness: the theorem evaluated on a concrete run — two due sends of
company 5 under cap 1 at a single pass at time 0 produce at most one logged
send of company 5 in the window starting at 0. -/
theorem C4_witness :
    List.Chain (fun a b => a ≤ b) 0
      (([((0 : Nat), true)]).map Prod.fst) ∧
    windowCount
      (runPasses 1 ⟨[⟨5, 1⟩, ⟨5, 2⟩], []⟩ [(0, true)]).log 5 0 ≤ 1 := by
  have hchain : List.Chain (fun a b => a ≤ b) 0
      (([((0 : Nat), true)]).map Prod.fst) :=
    List.Chain.cons (Nat.le_refl 0) List.Chain.nil
  exact ⟨hchain,
    (C4_throttle_cap_and_no_drop 1 [⟨5, 1⟩, ⟨5, 2⟩] [(0, true)] hchain).1 5 0⟩

end LeadForge
